import Mathlib

/-!
# Verification of the pr-status-giphy action (`src/index.js`)

A shallow embedding of the single-file GitHub action that polls the check
runs of a pull-request commit and posts a gif comment reflecting their
aggregate status.

Modelling conventions:
* HTTP responses are supplied by an environment (`RunEnv`): `checksAt i` is
  the check-run collection returned by the `i`-th poll, `gifFor tag` the gif
  returned by the random-gif endpoint.  All network calls are assumed to
  succeed (the error path merely propagates a rejection and exits 1).
* The side effects of a run are recorded as a trace of `ApiCall`s, in the
  order the code issues them.
* The pull-request comment list is threaded through the loop as explicit
  state; each iteration's comment listing returns exactly that state.  This
  encodes the spec's single-writer assumption (no other actor edits the
  comments during a run).
* Wall time is idealised: network calls are instantaneous and each
  `IN_PROGRESS` re-poll costs exactly the fixed 5000 ms delay, so the
  300000 ms global timeout permits at most `300000 / 5000` poll iterations;
  the loop therefore runs on that fuel, and exhausting it models the
  `setTimeout` firing (`process.exit(1)`).
-/

/-- A GitHub check run as consumed by `getStatusOfChecks`: `conclusion` is
`none` when the JSON field is absent (run not completed yet). -/
structure CheckRun where
  name : String
  status : String
  conclusion : Option String
deriving DecidableEq, Repr

/-- A pull-request comment (`id` and `body` are the only fields the code
reads). -/
structure Comment where
  id : Nat
  body : String
deriving DecidableEq, Repr

/-- The gif metadata used by `postCommentWithGif`: `imageUrl` embeds the
`gif.images.original.webp` field of the giphy payload. -/
structure Gif where
  title : String
  imageUrl : String
deriving DecidableEq, Repr

/-- The pull-request event payload; `none` models a missing
`GITHUB_EVENT_PATH` (the falsy `''` in the JS). -/
structure Event where
  action : String
  number : Nat
deriving DecidableEq, Repr

/-- The footer marker appended to every comment the action posts (src/index.js:28-29). -/
def commentFooter : String := "<sub>;)</sub>"

/-- Substring occurrence on character lists: `charsContain s sub` is `true`
iff `sub` occurs contiguously in `s`. -/
def charsContain : List Char → List Char → Bool
  | [], sub => sub.isEmpty
  | c :: rest, sub => ((c :: rest).take sub.length == sub) || charsContain rest sub

/-- JavaScript's `s.includes(sub)`: substring containment on strings. -/
def includesStr (s sub : String) : Bool :=
  charsContain s.toList sub.toList

/-- Aggregator `getStatusOfChecks` (src/index.js:43-55): filter out the action's own
check run, report `FAILURE` if any remaining run completed with conclusion
`failure`, else `IN_PROGRESS` if any remaining run is queued or in
progress, else `SUCCESS`. -/
def getStatusOfChecks (githubAction : String) (check_runs : List CheckRun) : String :=
  let filteredChecks := check_runs.filter (fun cr => cr.name != githubAction)
  let failedChecks := filteredChecks.filter
    (fun cr => cr.status == "completed" && cr.conclusion == some "failure")
  if failedChecks.length ≠ 0 then "FAILURE"
  else
    let inProgressChecks := filteredChecks.filter
      (fun cr => cr.status == "queued" || cr.status == "in_progress")
    if inProgressChecks.length ≠ 0 then "IN_PROGRESS"
    else "SUCCESS"

/-- One HTTP request issued by the action, as recorded in the run trace. -/
inductive ApiCall where
  | getComments : ApiCall
  | deleteComment : Nat → ApiCall
  | getCheckRuns : ApiCall
  | getRandomGif : String → ApiCall
  | postComment : String → ApiCall
deriving DecidableEq, Repr

/-- Cleanup `deleteCommentsFromAction` (src/index.js:82-94): filter the comments to
those whose body contains the footer marker; if none, resolve immediately
(no requests); otherwise issue one DELETE per matched comment.  The value
is the list of DELETE requests issued. -/
def deleteCommentsFromAction (comments : List Comment) : List ApiCall :=
  let filteredComments := comments.filter (fun c => includesStr c.body commentFooter)
  if filteredComments.length = 0 then []
  else filteredComments.map (fun c => ApiCall.deleteComment c.id)

/-- Effect of a batch of DELETE requests on the comment list: a comment
survives iff no issued request targets its id. -/
def applyDeletes (calls : List ApiCall) (comments : List Comment) : List Comment :=
  comments.filter (fun c => !(calls.contains (ApiCall.deleteComment c.id)))

/-- From `postCommentWithGif` (src/index.js:124-135): the body of the posted
comment, `` `![${gif.title}](${gif.images.original.webp})\n${commentFooter}` ``. -/
def commentBody (gif : Gif) : String :=
  "![" ++ gif.title ++ "](" ++ gif.imageUrl ++ ")\n" ++ commentFooter

/-- The run environment: the action's own name and the responses the
external services give during this run. -/
structure RunEnv where
  githubAction : String
  checksAt : Nat → List CheckRun
  gifFor : String → Gif

/-- Trace of `postGiphyGifForTag` (src/index.js:141-143): fetch a random gif for the
tag, then POST a comment built from it. -/
def postGiphyGifForTag (env : RunEnv) (tag : String) : List ApiCall :=
  [ApiCall.getRandomGif tag, ApiCall.postComment (commentBody (env.gifFor tag))]

/-- Result of running the notifier loop: the trace of HTTP requests, the
final comment list on the pull request, and whether a terminal status was
reached (`false` = still polling when the fuel / global timeout ran out). -/
structure ScanResult where
  calls : List ApiCall
  comments : List Comment
  done : Bool
deriving Repr

/-- The loop `scanChecksAndPostGif` (src/index.js:149-166), fuel-bounded.  Each
iteration: list the comments, delete the self-authored ones
(`deleteExistingComments`), fetch the check runs, aggregate; on `FAILURE`
post a "thumbs-down" gif, on `SUCCESS` a "thumbs-up" gif, on `IN_PROGRESS`
wait 5 s and recurse.  `i` counts the iterations (indexing `checksAt`),
`nextId` is the id the server assigns to a newly created comment. -/
def scanChecksAndPostGif (env : RunEnv) : Nat → Nat → Nat → List Comment → ScanResult
  | 0, _, _, comments => ⟨[], comments, false⟩
  | fuel + 1, i, nextId, comments =>
    let deletes := deleteCommentsFromAction comments
    let afterCleanup := applyDeletes deletes comments
    let status := getStatusOfChecks env.githubAction (env.checksAt i)
    if status = "FAILURE" then
      ⟨(ApiCall.getComments :: deletes) ++ [ApiCall.getCheckRuns]
         ++ postGiphyGifForTag env "thumbs-down",
       afterCleanup ++ [⟨nextId, commentBody (env.gifFor "thumbs-down")⟩], true⟩
    else if status = "SUCCESS" then
      ⟨(ApiCall.getComments :: deletes) ++ [ApiCall.getCheckRuns]
         ++ postGiphyGifForTag env "thumbs-up",
       afterCleanup ++ [⟨nextId, commentBody (env.gifFor "thumbs-up")⟩], true⟩
    else
      let rest := scanChecksAndPostGif env fuel (i + 1) nextId afterCleanup
      ⟨(ApiCall.getComments :: deletes) ++ [ApiCall.getCheckRuns] ++ rest.calls,
       rest.comments, rest.done⟩

/-- The neutral exit code (src/index.js:4): 78 when the GITHUB_WORKFLOW variable is set,
0 otherwise. -/
def NEUTRAL_ERROR_CODE (githubWorkflow : Bool) : Nat :=
  if githubWorkflow then 78 else 0

/-- The entry guard (src/index.js:168-178): proceed only when an event
payload exists and its action is `synchronize` or `opened`. -/
def entryGuardPasses : Option Event → Bool
  | none => false
  | some e => e.action == "synchronize" || e.action == "opened"

/-- The fixed re-poll delay, ms (src/index.js:161). -/
def pollDelayMs : Nat := 5000

/-- The global timeout, ms (src/index.js:193-196). -/
def timeoutMs : Nat := 300000

/-- The number of poll iterations the global timeout permits under the
idealised timing model (network calls instantaneous, each re-poll exactly
`pollDelayMs`). -/
def maxPolls : Nat := timeoutMs / pollDelayMs

/-- The whole process (src/index.js:168-196): exit with the neutral code
and no API calls when the entry guard fails; otherwise run the loop and
exit 0 on completion, 1 when the global timeout fires first.  The value is
(exit code, request trace, final comment list). -/
def runProcess (githubWorkflow : Bool) (githubEvent : Option Event) (env : RunEnv)
    (nextId : Nat) (comments : List Comment) : Nat × List ApiCall × List Comment :=
  if entryGuardPasses githubEvent then
    let r := scanChecksAndPostGif env maxPolls 0 nextId comments
    (if r.done then 0 else 1, r.calls, r.comments)
  else
    (NEUTRAL_ERROR_CODE githubWorkflow, [], comments)

/-- The number of iterations the loop executes (fuel-bounded): 1 for a
terminal status, one more than the tail for `IN_PROGRESS`. -/
def pollIterations (env : RunEnv) : Nat → Nat → Nat
  | 0, _ => 0
  | fuel + 1, i =>
    let status := getStatusOfChecks env.githubAction (env.checksAt i)
    if status = "FAILURE" then 1
    else if status = "SUCCESS" then 1
    else 1 + pollIterations env fuel (i + 1)

/-- An environment whose first poll is still in progress and whose second
poll has completed successfully. -/
def twoPollEnv : RunEnv where
  githubAction := "pr-status-giphy"
  checksAt := fun i => if i = 0 then [⟨"build", "in_progress", none⟩]
    else [⟨"build", "completed", some "success"⟩]
  gifFor := fun _ => ⟨"excited", "https://giphy.example/x.webp"⟩

/-- An environment whose checks never leave `in_progress`. -/
def stuckEnv : RunEnv where
  githubAction := "self"
  checksAt := fun _ => [⟨"build", "in_progress", none⟩]
  gifFor := fun _ => ⟨"t", "https://giphy.example/t.webp"⟩

/-- An environment whose checks succeed immediately. -/
def quickEnv : RunEnv where
  githubAction := "self"
  checksAt := fun _ => []
  gifFor := fun _ => ⟨"party", "https://giphy.example/p.webp"⟩

section Sanity

example : includesStr "ok <sub>;)</sub>" commentFooter = true := by decide
example : includesStr "hi" commentFooter = false := by decide

example :
    getStatusOfChecks "self"
      [⟨"self", "in_progress", none⟩, ⟨"other", "completed", some "success"⟩]
      = "SUCCESS" := by decide

example :
    getStatusOfChecks "self"
      [⟨"a", "completed", some "failure"⟩, ⟨"b", "in_progress", none⟩]
      = "FAILURE" := by decide

example :
    getStatusOfChecks "self" [⟨"b", "queued", none⟩] = "IN_PROGRESS" := by decide

example : getStatusOfChecks "self" [] = "SUCCESS" := by decide

example :
    deleteCommentsFromAction [⟨1, "hi"⟩, ⟨2, "ok <sub>;)</sub>"⟩]
      = [ApiCall.deleteComment 2] := by decide

end Sanity

/-! ## Helper lemmas -/

lemma filter_length_ne_zero {α : Type} {p : α → Bool} {l : List α} {a : α}
    (ha : a ∈ l) (hp : p a = true) : (l.filter p).length ≠ 0 := by
  intro h
  rw [List.length_eq_zero] at h
  have hmem : a ∈ l.filter p := List.mem_filter.mpr ⟨ha, hp⟩
  simp [h] at hmem

lemma filter_length_zero {α : Type} {p : α → Bool} {l : List α}
    (h : ∀ a ∈ l, p a = false) : (l.filter p).length = 0 := by
  rw [List.length_eq_zero, List.filter_eq_nil_iff]
  intro a ha
  simp [h a ha]

/-- Unfolding of `getStatusOfChecks` with its `let`s flattened, for rewriting. -/
lemma getStatusOfChecks_eq (githubAction : String) (check_runs : List CheckRun) :
    getStatusOfChecks githubAction check_runs =
      (if ((check_runs.filter (fun cr => cr.name != githubAction)).filter
            (fun cr => cr.status == "completed" && cr.conclusion == some "failure")).length ≠ 0
       then "FAILURE"
       else if ((check_runs.filter (fun cr => cr.name != githubAction)).filter
            (fun cr => cr.status == "queued" || cr.status == "in_progress")).length ≠ 0
       then "IN_PROGRESS" else "SUCCESS") := rfl

/-! ## Claims about the check aggregator -/

/-- C1: if at least one run other than the action's own completed with
conclusion `failure`, the aggregate status is `FAILURE`, whatever the other
runs look like. -/
theorem getStatus_failure_priority (githubAction : String) (check_runs : List CheckRun)
    (h : ∃ cr ∈ check_runs, cr.name ≠ githubAction ∧ cr.status = "completed" ∧
      cr.conclusion = some "failure") :
    getStatusOfChecks githubAction check_runs = "FAILURE" := by
  obtain ⟨cr, hmem, hname, hstatus, hconc⟩ := h
  have hfail : ((check_runs.filter (fun cr => cr.name != githubAction)).filter
      (fun cr => cr.status == "completed" && cr.conclusion == some "failure")).length ≠ 0 := by
    apply filter_length_ne_zero (a := cr)
    · exact List.mem_filter.mpr ⟨hmem, by simp [hname]⟩
    · simp [hstatus, hconc]
  rw [getStatusOfChecks_eq, if_pos hfail]

/-- C1 witness. -/
theorem getStatus_failure_priority_w :
    getStatusOfChecks "self"
      [⟨"a", "completed", some "failure"⟩, ⟨"b", "in_progress", none⟩] = "FAILURE" :=
  getStatus_failure_priority "self" _
    ⟨⟨"a", "completed", some "failure"⟩, by decide, by decide, rfl, rfl⟩

/-- C3: runs named like the action itself never influence the aggregate
status — the result over the full collection equals the result over the
collection with them removed. -/
theorem getStatus_self_excluded (githubAction : String) (check_runs : List CheckRun) :
    getStatusOfChecks githubAction check_runs
      = getStatusOfChecks githubAction
          (check_runs.filter (fun cr => cr.name != githubAction)) := by
  rw [getStatusOfChecks_eq, getStatusOfChecks_eq, List.filter_filter]
  simp

/-- C4: with no failed completed run after self-exclusion, the status is
`IN_PROGRESS` exactly when some remaining run is queued or in progress, and
`SUCCESS` otherwise — in particular for an empty post-exclusion
collection. -/
theorem getStatus_no_failure (githubAction : String) (check_runs : List CheckRun)
    (hnf : ∀ cr ∈ check_runs, cr.name ≠ githubAction →
      ¬(cr.status = "completed" ∧ cr.conclusion = some "failure")) :
    ((∃ cr ∈ check_runs, cr.name ≠ githubAction ∧
        (cr.status = "queued" ∨ cr.status = "in_progress")) →
      getStatusOfChecks githubAction check_runs = "IN_PROGRESS")
    ∧ ((∀ cr ∈ check_runs, cr.name ≠ githubAction →
        cr.status ≠ "queued" ∧ cr.status ≠ "in_progress") →
      getStatusOfChecks githubAction check_runs = "SUCCESS")
    ∧ (check_runs.filter (fun cr => cr.name != githubAction) = [] →
      getStatusOfChecks githubAction check_runs = "SUCCESS") := by
  have hfail0 : ((check_runs.filter (fun cr => cr.name != githubAction)).filter
      (fun cr => cr.status == "completed" && cr.conclusion == some "failure")).length = 0 := by
    apply filter_length_zero
    intro cr hcr
    rcases List.mem_filter.mp hcr with ⟨hmem, hne⟩
    have hne' : cr.name ≠ githubAction := by simpa using hne
    by_contra hb
    rw [Bool.not_eq_false] at hb
    simp only [Bool.and_eq_true, beq_iff_eq] at hb
    exact hnf cr hmem hne' hb
  refine ⟨fun hex => ?_, fun hall => ?_, fun hempty => ?_⟩
  · obtain ⟨cr, hmem, hname, hqp⟩ := hex
    have hip : ((check_runs.filter (fun cr => cr.name != githubAction)).filter
        (fun cr => cr.status == "queued" || cr.status == "in_progress")).length ≠ 0 := by
      apply filter_length_ne_zero (a := cr)
      · exact List.mem_filter.mpr ⟨hmem, by simp [hname]⟩
      · rcases hqp with hcase | hcase <;> simp [hcase]
    rw [getStatusOfChecks_eq, if_neg (fun hcon => hcon hfail0), if_pos hip]
  · have hip0 : ((check_runs.filter (fun cr => cr.name != githubAction)).filter
        (fun cr => cr.status == "queued" || cr.status == "in_progress")).length = 0 := by
      apply filter_length_zero
      intro cr hcr
      rcases List.mem_filter.mp hcr with ⟨hmem, hne⟩
      have hne' : cr.name ≠ githubAction := by simpa using hne
      rcases hall cr hmem hne' with ⟨hq, hp⟩
      simp [hq, hp]
    rw [getStatusOfChecks_eq, if_neg (fun hcon => hcon hfail0), if_neg (fun hcon => hcon hip0)]
  · rw [getStatusOfChecks_eq, hempty]
    simp

/-- C4 witness. -/
theorem getStatus_no_failure_w :
    getStatusOfChecks "self" [⟨"b", "queued", none⟩] = "IN_PROGRESS" :=
  (getStatus_no_failure "self" [⟨"b", "queued", none⟩] (by decide)).1
    ⟨⟨"b", "queued", none⟩, by decide, by decide, Or.inl rfl⟩

/-- C10: a run that completed with any conclusion other than `failure`
never changes the aggregate status, and a collection made only of such runs
(post-exclusion) aggregates to `SUCCESS`. -/
theorem getStatus_nonfailure_completed (githubAction : String) (cr : CheckRun)
    (check_runs : List CheckRun) (hc : cr.status = "completed")
    (hf : cr.conclusion ≠ some "failure") :
    getStatusOfChecks githubAction (cr :: check_runs)
      = getStatusOfChecks githubAction check_runs
    ∧ ((∀ c ∈ cr :: check_runs, c.name ≠ githubAction →
        c.status = "completed" ∧ c.conclusion ≠ some "failure") →
      getStatusOfChecks githubAction (cr :: check_runs) = "SUCCESS") := by
  have hfp : (cr.status == "completed" && cr.conclusion == some "failure") = false := by
    rw [hc]
    simp only [beq_self_eq_true, Bool.true_and]
    exact beq_eq_false_iff_ne.mpr hf
  have hip : (cr.status == "queued" || cr.status == "in_progress") = false := by
    rw [hc]; decide
  constructor
  · rw [getStatusOfChecks_eq, getStatusOfChecks_eq]
    cases hname : (cr.name != githubAction) with
    | false => simp [List.filter_cons, hname]
    | true => simp [List.filter_cons, hname, hfp, hip]
  · intro hall
    have hfail0 : (((cr :: check_runs).filter (fun c => c.name != githubAction)).filter
        (fun c => c.status == "completed" && c.conclusion == some "failure")).length = 0 := by
      apply filter_length_zero
      intro c hcmem
      rcases List.mem_filter.mp hcmem with ⟨hmem, hne⟩
      have hne' : c.name ≠ githubAction := by simpa using hne
      rcases hall c hmem hne' with ⟨_, hcf⟩
      simp [beq_eq_false_iff_ne.mpr hcf]
    have hip0 : (((cr :: check_runs).filter (fun c => c.name != githubAction)).filter
        (fun c => c.status == "queued" || c.status == "in_progress")).length = 0 := by
      apply filter_length_zero
      intro c hcmem
      rcases List.mem_filter.mp hcmem with ⟨hmem, hne⟩
      have hne' : c.name ≠ githubAction := by simpa using hne
      rcases hall c hmem hne' with ⟨hcc, _⟩
      rw [hcc]; decide
    rw [getStatusOfChecks_eq, if_neg (fun hcon => hcon hfail0), if_neg (fun hcon => hcon hip0)]

/-- C10 witness. -/
theorem getStatus_nonfailure_completed_w :
    getStatusOfChecks "self" [⟨"c", "completed", some "cancelled"⟩] = "SUCCESS" :=
  (getStatus_nonfailure_completed "self" ⟨"c", "completed", some "cancelled"⟩ []
    rfl (by decide)).2 (by decide)

/-! ## Comment manager lemmas -/

/-- Both branches of `deleteCommentsFromAction` collapse to mapping the
DELETE constructor over the footer-matching comments. -/
lemma deleteCommentsFromAction_eq (comments : List Comment) :
    deleteCommentsFromAction comments
      = (comments.filter (fun c => includesStr c.body commentFooter)).map
          (fun c => ApiCall.deleteComment c.id) := by
  show (if (comments.filter (fun c => includesStr c.body commentFooter)).length = 0 then []
        else (comments.filter (fun c => includesStr c.body commentFooter)).map
          (fun c => ApiCall.deleteComment c.id)) = _
  by_cases h : (comments.filter (fun c => includesStr c.body commentFooter)).length = 0
  · rw [if_pos h, List.length_eq_zero.mp h]
    rfl
  · rw [if_neg h]

/-- Every request issued by the cleanup step is a DELETE. -/
lemma deletes_shape {a : ApiCall} {comments : List Comment}
    (ha : a ∈ deleteCommentsFromAction comments) : ∃ i, a = ApiCall.deleteComment i := by
  rw [deleteCommentsFromAction_eq] at ha
  rcases List.mem_map.mp ha with ⟨c, _, heq⟩
  exact ⟨c.id, heq.symm⟩

lemma count_getComments_deletes (comments : List Comment) :
    (deleteCommentsFromAction comments).count ApiCall.getComments = 0 := by
  rw [List.count_eq_zero]
  intro hmem
  rcases deletes_shape hmem with ⟨i, hi⟩
  exact ApiCall.noConfusion hi

lemma count_getComments_post (env : RunEnv) (tag : String) :
    (postGiphyGifForTag env tag).count ApiCall.getComments = 0 := by
  have h1 : (ApiCall.getRandomGif tag == ApiCall.getComments) = false :=
    beq_eq_false_iff_ne.mpr (fun hcon => ApiCall.noConfusion hcon)
  have h2 : (ApiCall.postComment (commentBody (env.gifFor tag)) == ApiCall.getComments) = false :=
    beq_eq_false_iff_ne.mpr (fun hcon => ApiCall.noConfusion hcon)
  simp [postGiphyGifForTag, List.count_cons, h1, h2]

/-- One comment-list fetch per cleanup block, none in the tail besides its
own. -/
lemma count_getComments_block (comments : List Comment) (tailCalls : List ApiCall) :
    (((ApiCall.getComments :: deleteCommentsFromAction comments) ++ [ApiCall.getCheckRuns])
      ++ tailCalls).count ApiCall.getComments
    = 1 + tailCalls.count ApiCall.getComments := by
  have h1 : (ApiCall.getComments == ApiCall.getComments) = true := by decide
  have h2 : (ApiCall.getCheckRuns == ApiCall.getComments) = false := by decide
  simp [List.count_append, List.count_cons, h1, h2, count_getComments_deletes,
    Nat.add_comm]

/-- A `postComment` request in a cleanup-plus-fetch block must come from
the block's tail. -/
lemma postComment_mem_block {b : String} {comments : List Comment} {tailCalls : List ApiCall}
    (hb : ApiCall.postComment b ∈
      ((ApiCall.getComments :: deleteCommentsFromAction comments) ++ [ApiCall.getCheckRuns])
        ++ tailCalls) :
    ApiCall.postComment b ∈ tailCalls := by
  rcases List.mem_append.mp hb with hb1 | hb2
  · rcases List.mem_append.mp hb1 with hb3 | hb4
    · rcases List.mem_cons.mp hb3 with heq | hmem
      · exact absurd heq (by simp)
      · rcases deletes_shape hmem with ⟨j, hj⟩
        exact absurd hj (by simp)
    · exact absurd (List.mem_singleton.mp hb4) (by simp)
  · exact hb2

/-! ## Branch equations for the notifier loop -/

lemma scan_succ_failure (env : RunEnv) (fuel i nextId : Nat) (comments : List Comment)
    (hf : getStatusOfChecks env.githubAction (env.checksAt i) = "FAILURE") :
    scanChecksAndPostGif env (fuel + 1) i nextId comments
      = ⟨((ApiCall.getComments :: deleteCommentsFromAction comments) ++ [ApiCall.getCheckRuns])
           ++ postGiphyGifForTag env "thumbs-down",
         applyDeletes (deleteCommentsFromAction comments) comments
           ++ [⟨nextId, commentBody (env.gifFor "thumbs-down")⟩], true⟩ := by
  simp only [scanChecksAndPostGif]
  rw [if_pos hf]

lemma scan_succ_success (env : RunEnv) (fuel i nextId : Nat) (comments : List Comment)
    (hf : ¬ getStatusOfChecks env.githubAction (env.checksAt i) = "FAILURE")
    (hs : getStatusOfChecks env.githubAction (env.checksAt i) = "SUCCESS") :
    scanChecksAndPostGif env (fuel + 1) i nextId comments
      = ⟨((ApiCall.getComments :: deleteCommentsFromAction comments) ++ [ApiCall.getCheckRuns])
           ++ postGiphyGifForTag env "thumbs-up",
         applyDeletes (deleteCommentsFromAction comments) comments
           ++ [⟨nextId, commentBody (env.gifFor "thumbs-up")⟩], true⟩ := by
  simp only [scanChecksAndPostGif]
  rw [if_neg hf, if_pos hs]

lemma scan_succ_inprogress (env : RunEnv) (fuel i nextId : Nat) (comments : List Comment)
    (hf : ¬ getStatusOfChecks env.githubAction (env.checksAt i) = "FAILURE")
    (hs : ¬ getStatusOfChecks env.githubAction (env.checksAt i) = "SUCCESS") :
    scanChecksAndPostGif env (fuel + 1) i nextId comments
      = ⟨((ApiCall.getComments :: deleteCommentsFromAction comments) ++ [ApiCall.getCheckRuns])
           ++ (scanChecksAndPostGif env fuel (i + 1) nextId
                (applyDeletes (deleteCommentsFromAction comments) comments)).calls,
         (scanChecksAndPostGif env fuel (i + 1) nextId
           (applyDeletes (deleteCommentsFromAction comments) comments)).comments,
         (scanChecksAndPostGif env fuel (i + 1) nextId
           (applyDeletes (deleteCommentsFromAction comments) comments)).done⟩ := by
  simp only [scanChecksAndPostGif]
  rw [if_neg hf, if_neg hs]

lemma pollIterations_succ_terminal (env : RunEnv) (fuel i : Nat)
    (ht : getStatusOfChecks env.githubAction (env.checksAt i) = "FAILURE"
      ∨ getStatusOfChecks env.githubAction (env.checksAt i) = "SUCCESS") :
    pollIterations env (fuel + 1) i = 1 := by
  simp only [pollIterations]
  rcases ht with hf | hs
  · rw [if_pos hf]
  · by_cases hf : getStatusOfChecks env.githubAction (env.checksAt i) = "FAILURE"
    · rw [if_pos hf]
    · rw [if_neg hf, if_pos hs]

lemma pollIterations_succ_inprogress (env : RunEnv) (fuel i : Nat)
    (hf : ¬ getStatusOfChecks env.githubAction (env.checksAt i) = "FAILURE")
    (hs : ¬ getStatusOfChecks env.githubAction (env.checksAt i) = "SUCCESS") :
    pollIterations env (fuel + 1) i = 1 + pollIterations env fuel (i + 1) := by
  simp only [pollIterations]
  rw [if_neg hf, if_neg hs]

/-! ## Claims about the comment manager and entry guard -/

/-- C7: `deleteCommentsFromAction` issues DELETEs for exactly the comments
whose body contains the footer marker — nothing else is deleted, only
DELETEs are issued, and when nothing matches it issues no request at
all. -/
theorem deleteComments_exact (comments : List Comment) :
    (∀ i, ApiCall.deleteComment i ∈ deleteCommentsFromAction comments ↔
      ∃ c ∈ comments, c.id = i ∧ includesStr c.body commentFooter = true)
    ∧ (∀ a ∈ deleteCommentsFromAction comments, ∃ i, a = ApiCall.deleteComment i)
    ∧ ((∀ c ∈ comments, includesStr c.body commentFooter = false) →
      deleteCommentsFromAction comments = []) := by
  refine ⟨fun i => ⟨fun hmem => ?_, fun hex => ?_⟩, fun a ha => deletes_shape ha,
    fun hnone => ?_⟩
  · rw [deleteCommentsFromAction_eq] at hmem
    rcases List.mem_map.mp hmem with ⟨c, hc, heq⟩
    rcases List.mem_filter.mp hc with ⟨hcm, hcf⟩
    refine ⟨c, hcm, ?_, hcf⟩
    injection heq
  · rcases hex with ⟨c, hcm, hid, hcf⟩
    rw [deleteCommentsFromAction_eq]
    exact List.mem_map.mpr ⟨c, List.mem_filter.mpr ⟨hcm, hcf⟩, by rw [hid]⟩
  · rw [deleteCommentsFromAction_eq, List.filter_eq_nil_iff.mpr
      (fun c hc => by simp [hnone c hc])]
    rfl

/-- C7 witness: on the spec's example only the comment with id 2 (whose
body contains the footer) is deleted. -/
theorem deleteComments_exact_w :
    ApiCall.deleteComment 2 ∈ deleteCommentsFromAction [⟨1, "hi"⟩, ⟨2, "ok <sub>;)</sub>"⟩] :=
  ((deleteComments_exact [⟨1, "hi"⟩, ⟨2, "ok <sub>;)</sub>"⟩]).1 2).mpr
    ⟨⟨2, "ok <sub>;)</sub>"⟩, by decide, rfl, by decide⟩

/-- C5: the pipeline proceeds only for an existing payload whose action is
`opened` or `synchronize`; otherwise the process exits at once with the
neutral code — 78 inside an automated workflow, 0 outside — and issues no
API call. -/
theorem entryGuard_neutral_exit (githubWorkflow : Bool) (githubEvent : Option Event)
    (env : RunEnv) (nextId : Nat) (comments : List Comment) :
    (entryGuardPasses githubEvent = true ↔
      ∃ e, githubEvent = some e ∧ (e.action = "opened" ∨ e.action = "synchronize"))
    ∧ (entryGuardPasses githubEvent = false →
      runProcess githubWorkflow githubEvent env nextId comments
        = (NEUTRAL_ERROR_CODE githubWorkflow, [], comments))
    ∧ NEUTRAL_ERROR_CODE githubWorkflow = (if githubWorkflow = true then 78 else 0) := by
  refine ⟨?_, fun hg => ?_, rfl⟩
  · cases githubEvent with
    | none => simp [entryGuardPasses]
    | some e =>
      simp only [entryGuardPasses, Bool.or_eq_true, beq_iff_eq, Option.some.injEq]
      constructor
      · rintro (h | h)
        · exact ⟨e, rfl, Or.inr h⟩
        · exact ⟨e, rfl, Or.inl h⟩
      · rintro ⟨e', he', h | h⟩ <;> cases he'
        · exact Or.inr h
        · exact Or.inl h
  · simp [runProcess, hg]

/-- C5 witness: a `closed` event inside a workflow exits with 78 and no API
calls. -/
theorem entryGuard_neutral_exit_w :
    runProcess true (some ⟨"closed", 7⟩)
      ⟨"self", fun _ => [], fun _ => ⟨"t", "u"⟩⟩ 0 [] = (78, [], []) :=
  (entryGuard_neutral_exit true (some ⟨"closed", 7⟩)
    ⟨"self", fun _ => [], fun _ => ⟨"t", "u"⟩⟩ 0 []).2.1 (by decide)



/-! ## Claims about the notifier loop -/

/-- C2 amended: the comment cleanup runs at the start of every polling
iteration, not only the first — the trace holds exactly one comment-list
fetch per iteration the loop performs. -/
theorem cleanup_every_iteration (env : RunEnv) :
    ∀ (fuel i nextId : Nat) (comments : List Comment),
      (scanChecksAndPostGif env fuel i nextId comments).calls.count ApiCall.getComments
        = pollIterations env fuel i := by
  intro fuel
  induction fuel with
  | zero =>
    intro i nextId comments
    rfl
  | succ fuel ih =>
    intro i nextId comments
    by_cases hf : getStatusOfChecks env.githubAction (env.checksAt i) = "FAILURE"
    · rw [scan_succ_failure env fuel i nextId comments hf,
        pollIterations_succ_terminal env fuel i (Or.inl hf)]
      show (((ApiCall.getComments :: deleteCommentsFromAction comments) ++ [ApiCall.getCheckRuns])
        ++ postGiphyGifForTag env "thumbs-down").count ApiCall.getComments = 1
      rw [count_getComments_block, count_getComments_post]
    · by_cases hs : getStatusOfChecks env.githubAction (env.checksAt i) = "SUCCESS"
      · rw [scan_succ_success env fuel i nextId comments hf hs,
          pollIterations_succ_terminal env fuel i (Or.inr hs)]
        show (((ApiCall.getComments :: deleteCommentsFromAction comments) ++ [ApiCall.getCheckRuns])
          ++ postGiphyGifForTag env "thumbs-up").count ApiCall.getComments = 1
        rw [count_getComments_block, count_getComments_post]
      · rw [scan_succ_inprogress env fuel i nextId comments hf hs,
          pollIterations_succ_inprogress env fuel i hf hs]
        show (((ApiCall.getComments :: deleteCommentsFromAction comments) ++ [ApiCall.getCheckRuns])
          ++ (scanChecksAndPostGif env fuel (i + 1) nextId
            (applyDeletes (deleteCommentsFromAction comments) comments)).calls).count
            ApiCall.getComments = 1 + pollIterations env fuel (i + 1)
        rw [count_getComments_block, ih]

/-- C2 counterexample: with a first poll still in progress and a second one
successful, the completed run fetches the comment list twice, so the
cleanup step is not invoked exactly once per run. -/
theorem cleanup_once_cex :
    (scanChecksAndPostGif twoPollEnv maxPolls 0 0 []).done = true
    ∧ (scanChecksAndPostGif twoPollEnv maxPolls 0 0 []).calls.count ApiCall.getComments = 2
    ∧ ¬ (scanChecksAndPostGif twoPollEnv maxPolls 0 0 []).calls.count
        ApiCall.getComments = 1 := by
  decide

/-- If every poll aggregates to `IN_PROGRESS`, the loop never reaches a
terminal state and never issues a POST. -/
lemma scan_stuck (env : RunEnv)
    (h : ∀ i, getStatusOfChecks env.githubAction (env.checksAt i) = "IN_PROGRESS") :
    ∀ (fuel i nextId : Nat) (comments : List Comment),
      (scanChecksAndPostGif env fuel i nextId comments).done = false
      ∧ ∀ b, ApiCall.postComment b ∉ (scanChecksAndPostGif env fuel i nextId comments).calls := by
  intro fuel
  induction fuel with
  | zero =>
    intro i nextId comments
    exact ⟨rfl, fun b hb => by simp [scanChecksAndPostGif] at hb⟩
  | succ fuel ih =>
    intro i nextId comments
    have hf : ¬ getStatusOfChecks env.githubAction (env.checksAt i) = "FAILURE" := by
      rw [h i]; decide
    have hs : ¬ getStatusOfChecks env.githubAction (env.checksAt i) = "SUCCESS" := by
      rw [h i]; decide
    rw [scan_succ_inprogress env fuel i nextId comments hf hs]
    refine ⟨(ih (i + 1) nextId _).1, fun b hb => ?_⟩
    exact (ih (i + 1) nextId _).2 b (postComment_mem_block hb)

/-- C6: when the checks stay `IN_PROGRESS` past the global timeout, the
process exits with failure code 1 and never posts a comment. -/
theorem timeout_failure_exit (githubWorkflow : Bool) (githubEvent : Option Event)
    (env : RunEnv) (nextId : Nat) (comments : List Comment)
    (hg : entryGuardPasses githubEvent = true)
    (h : ∀ i, getStatusOfChecks env.githubAction (env.checksAt i) = "IN_PROGRESS") :
    (runProcess githubWorkflow githubEvent env nextId comments).1 = 1
    ∧ ∀ b, ApiCall.postComment b ∉
        (runProcess githubWorkflow githubEvent env nextId comments).2.1 := by
  have hstuck := scan_stuck env h maxPolls 0 nextId comments
  have hrun : runProcess githubWorkflow githubEvent env nextId comments
      = (1, (scanChecksAndPostGif env maxPolls 0 nextId comments).calls,
         (scanChecksAndPostGif env maxPolls 0 nextId comments).comments) := by
    simp [runProcess, hg, hstuck.1]
  rw [hrun]
  exact ⟨rfl, fun b => hstuck.2 b⟩

/-- C6 witness. -/
theorem timeout_failure_exit_w :
    (runProcess false (some ⟨"opened", 1⟩) stuckEnv 0 []).1 = 1 :=
  (timeout_failure_exit false (some ⟨"opened", 1⟩) stuckEnv 0 [] (by decide)
    (fun _ => rfl)).1

/-- C8: every comment body the loop ever posts is exactly the markdown
image of the fetched gif's title and url, a newline, and the footer
marker. -/
theorem postedBody_shape (env : RunEnv) (fuel : Nat) :
    ∀ (i nextId : Nat) (comments : List Comment) (b : String),
      ApiCall.postComment b ∈ (scanChecksAndPostGif env fuel i nextId comments).calls →
      ∃ tag, (tag = "thumbs-down" ∨ tag = "thumbs-up") ∧
        b = "![" ++ (env.gifFor tag).title ++ "](" ++ (env.gifFor tag).imageUrl
             ++ ")\n" ++ commentFooter := by
  induction fuel with
  | zero =>
    intro i nextId comments b hb
    simp [scanChecksAndPostGif] at hb
  | succ fuel ih =>
    intro i nextId comments b hb
    by_cases hf : getStatusOfChecks env.githubAction (env.checksAt i) = "FAILURE"
    · rw [scan_succ_failure env fuel i nextId comments hf] at hb
      have hb' := postComment_mem_block hb
      simp only [postGiphyGifForTag] at hb'
      rcases List.mem_cons.mp hb' with heq | hb''
      · exact absurd heq (by simp)
      · have heq2 := List.mem_singleton.mp hb''
        have hbeq : b = commentBody (env.gifFor "thumbs-down") := by injection heq2
        exact ⟨"thumbs-down", Or.inl rfl, by rw [hbeq]; rfl⟩
    · by_cases hs : getStatusOfChecks env.githubAction (env.checksAt i) = "SUCCESS"
      · rw [scan_succ_success env fuel i nextId comments hf hs] at hb
        have hb' := postComment_mem_block hb
        simp only [postGiphyGifForTag] at hb'
        rcases List.mem_cons.mp hb' with heq | hb''
        · exact absurd heq (by simp)
        · have heq2 := List.mem_singleton.mp hb''
          have hbeq : b = commentBody (env.gifFor "thumbs-up") := by injection heq2
          exact ⟨"thumbs-up", Or.inr rfl, by rw [hbeq]; rfl⟩
      · rw [scan_succ_inprogress env fuel i nextId comments hf hs] at hb
        exact ih (i + 1) nextId _ b (postComment_mem_block hb)

/-- C8 witness. -/
theorem postedBody_shape_w :
    ∃ tag, (tag = "thumbs-down" ∨ tag = "thumbs-up") ∧
      "![party](https://giphy.example/p.webp)\n<sub>;)</sub>"
        = "![" ++ (quickEnv.gifFor tag).title ++ "](" ++ (quickEnv.gifFor tag).imageUrl
           ++ ")\n" ++ commentFooter :=
  postedBody_shape quickEnv maxPolls 0 9 []
    "![party](https://giphy.example/p.webp)\n<sub>;)</sub>" (by decide)

/-- After one cleanup pass no surviving comment contains the footer. -/
lemma footerCount_after_cleanup (comments : List Comment) :
    (applyDeletes (deleteCommentsFromAction comments) comments).countP
      (fun c => includesStr c.body commentFooter) = 0 := by
  rw [List.countP_eq_zero]
  intro c hc hfoot
  rcases List.mem_filter.mp hc with ⟨hmem, hkeep⟩
  have hfoot' : includesStr c.body commentFooter = true := hfoot
  have hdel : ApiCall.deleteComment c.id ∈ deleteCommentsFromAction comments := by
    rw [deleteCommentsFromAction_eq]
    exact List.mem_map.mpr ⟨c, List.mem_filter.mpr ⟨hmem, hfoot'⟩, rfl⟩
  have hcont : (deleteCommentsFromAction comments).contains (ApiCall.deleteComment c.id) = true :=
    List.elem_iff.mpr hdel
  rw [Bool.not_eq_true'] at hkeep
  rw [hkeep] at hcont
  exact Bool.noConfusion hcont

lemma countP_singleton_le_one (p : Comment → Bool) (c : Comment) :
    List.countP p [c] ≤ 1 := by
  rw [List.countP_cons]
  simp only [List.countP_nil]
  by_cases hp : p c = true
  · simp [hp]
  · simp [hp]

/-- Any completed run leaves at most one footer-bearing comment. -/
lemma scan_footer_bound (env : RunEnv) :
    ∀ (fuel i nextId : Nat) (comments : List Comment),
      (scanChecksAndPostGif env fuel i nextId comments).done = true →
      ((scanChecksAndPostGif env fuel i nextId comments).comments).countP
        (fun c => includesStr c.body commentFooter) ≤ 1 := by
  intro fuel
  induction fuel with
  | zero =>
    intro i nextId comments hdone
    exact absurd hdone (by simp [scanChecksAndPostGif])
  | succ fuel ih =>
    intro i nextId comments hdone
    by_cases hf : getStatusOfChecks env.githubAction (env.checksAt i) = "FAILURE"
    · rw [scan_succ_failure env fuel i nextId comments hf]
      show ((applyDeletes (deleteCommentsFromAction comments) comments)
        ++ [(⟨nextId, commentBody (env.gifFor "thumbs-down")⟩ : Comment)]).countP
          (fun c => includesStr c.body commentFooter) ≤ 1
      rw [List.countP_append, footerCount_after_cleanup]
      simpa using countP_singleton_le_one _ _
    · by_cases hs : getStatusOfChecks env.githubAction (env.checksAt i) = "SUCCESS"
      · rw [scan_succ_success env fuel i nextId comments hf hs]
        show ((applyDeletes (deleteCommentsFromAction comments) comments)
          ++ [(⟨nextId, commentBody (env.gifFor "thumbs-up")⟩ : Comment)]).countP
            (fun c => includesStr c.body commentFooter) ≤ 1
        rw [List.countP_append, footerCount_after_cleanup]
        simpa using countP_singleton_le_one _ _
      · rw [scan_succ_inprogress env fuel i nextId comments hf hs] at hdone ⊢
        exact ih (i + 1) nextId _ hdone

/-- C9: a run that exits successfully leaves at most one comment bearing
the footer marker on the pull request. -/
theorem at_most_one_footer_comment (githubWorkflow : Bool) (githubEvent : Option Event)
    (env : RunEnv) (nextId : Nat) (comments : List Comment)
    (hg : entryGuardPasses githubEvent = true)
    (h0 : (runProcess githubWorkflow githubEvent env nextId comments).1 = 0) :
    ((runProcess githubWorkflow githubEvent env nextId comments).2.2).countP
      (fun c => includesStr c.body commentFooter) ≤ 1 := by
  have hrw : runProcess githubWorkflow githubEvent env nextId comments
      = (if (scanChecksAndPostGif env maxPolls 0 nextId comments).done then 0 else 1,
         (scanChecksAndPostGif env maxPolls 0 nextId comments).calls,
         (scanChecksAndPostGif env maxPolls 0 nextId comments).comments) := by
    simp [runProcess, hg]
  rw [hrw] at h0 ⊢
  by_cases hd : (scanChecksAndPostGif env maxPolls 0 nextId comments).done
  · exact scan_footer_bound env maxPolls 0 nextId comments hd
  · rw [if_neg hd] at h0
    exact absurd h0 Nat.one_ne_zero

/-- C9 witness. -/
theorem at_most_one_footer_comment_w :
    ((runProcess false (some ⟨"opened", 3⟩) quickEnv 9
        [⟨1, "hi"⟩, ⟨2, "ok <sub>;)</sub>"⟩]).2.2).countP
      (fun c => includesStr c.body commentFooter) ≤ 1 :=
  at_most_one_footer_comment false (some ⟨"opened", 3⟩) quickEnv 9
    [⟨1, "hi"⟩, ⟨2, "ok <sub>;)</sub>"⟩] (by decide) (by decide)


